import Mathlib

/-!
Verification of `lib/lorentz_equivariant/layers/LConv.py` (`GroupLorentzConv2d`,
a group-equivariant convolution layer on the Lorentz manifold).

The layer is embedded shallowly:

* value level — a patch (one flattened sliding-window extraction) is its flat
  index function `ℕ → ℝ`; the per-patch pipeline of `extract_lorentz_patches`
  (clamp of the time taps, time rescale, reorder of the spatial taps,
  concatenation) is translated operation by operation;
* shape level — `forward` is translated as a computation on tensor shapes
  returning `Except String`, where `Except.error` models the runtime errors the
  host numeric framework raises (out-of-range `narrow`, impossible `reshape`,
  linear-layer width mismatch, impossible `view`).

The collaborator `GroupLorentzFullyConnected` (file LFC.py) is not among the
sources; its shape behaviour is modelled from the specification (see
`linearized_kernel_shape`).
-/

/-- Configuration of a `GroupLorentzConv2d` layer as fixed by `__init__`
(LConv.py lines 18-83).  `kernelSize`, `stride`, `padding` and `dilation` are
stored as pairs, after the int-to-pair broadcasting of lines 42-60; `k` is the
curvature `self.manifold.k` of the externally owned manifold. -/
structure LayerCfg where
  inputStabilizerSize : ℕ
  outputStabilizerSize : ℕ
  inChannels : ℕ
  outChannels : ℕ
  kernelSize : ℕ × ℕ
  stride : ℕ × ℕ
  padding : ℕ × ℕ
  dilation : ℕ × ℕ
  bias : Bool
  k : ℝ

/-- `self.kernel_len = self.kernel_size[0] * self.kernel_size[1]` (line 64). -/
def kernel_len (cfg : LayerCfg) : ℕ := cfg.kernelSize.1 * cfg.kernelSize.2

/-- `lin_features = ((self.in_channels - 1) * self.kernel_size[0] * self.kernel_size[1]) + 1`
(line 65), the input width of the embedded linear collaborator. -/
def lin_features (cfg : LayerCfg) : ℕ := (cfg.inChannels - 1) * kernel_len cfg + 1

/-- Tags for the four index-table generators from `groupy` that appear as the
values of the `make_indices_functions` dictionary (lines 11-14). -/
inductive GIndexTag
  | c4z2
  | c4p4
  | d4z2
  | d4p4m
deriving DecidableEq

/-- The dictionary `make_indices_functions` (lines 11-14): a lookup keyed by
the pair `(input_stabilizer_size, output_stabilizer_size)`; `none` models the
`KeyError` a missing key raises. -/
def make_indices_functions (p : ℕ × ℕ) : Option GIndexTag :=
  if p = (1, 4) then some GIndexTag.c4z2
  else if p = (4, 4) then some GIndexTag.c4p4
  else if p = (1, 8) then some GIndexTag.d4z2
  else if p = (8, 8) then some GIndexTag.d4p4m
  else none

/-- `make_transformation_indices` (lines 84-86): the dictionary lookup keyed by
the stabilizer sizes (the selected `groupy` generator is only tagged; its table
contents are not needed by any claim). -/
def make_transformation_indices (cfg : LayerCfg) : Option GIndexTag :=
  make_indices_functions (cfg.inputStabilizerSize, cfg.outputStabilizerSize)

/-- Layer construction (`__init__`, lines 18-83).  Every statement up to line 82
is an attribute assignment or collaborator construction that succeeds for the
recorded configuration; line 83 evaluates `make_transformation_indices`, so
construction fails exactly when the stabilizer pair is missing from the
dictionary — and this happens inside `__init__`, before any `forward` call. -/
def constructGroupLorentzConv2d (cfg : LayerCfg) : Except String (LayerCfg × GIndexTag) :=
  match make_transformation_indices cfg with
  | some t => Except.ok (cfg, t)
  | none => Except.error "KeyError: unsupported (input_stabilizer_size, output_stabilizer_size)"

/-- The four supported stabilizer-size pairs. -/
def supportedPairs : List (ℕ × ℕ) := [(1, 4), (4, 4), (1, 8), (8, 8)]

/-- Output spatial size, lines 104-107:
`math.floor((dim + 2 * padding - dilation * (kernel - 1) - 1) / stride + 1)`.
The Python ints are exact; `math.floor` of the division plus one is integer
floor division plus one (theorem `convOutDim_eq_floor` below proves this
equals the floor of the exact rational expression; stride `0` would be a
`ZeroDivisionError` in the source and is never used). -/
def convOutDim (dim pad dil ker str : ℕ) : ℤ :=
  ((dim : ℤ) + 2 * (pad : ℤ) - (dil : ℤ) * ((ker : ℤ) - 1) - 1) / (str : ℤ) + 1

/-- Number of sliding-window patches produced by `self.unfold` (line 117) for an
input of spatial size `h × w`: `h_out * w_out` under the same
kernel/stride/padding/dilation the constructor passed to `torch.nn.Unfold`. -/
def num_patches (cfg : LayerCfg) (h w : ℕ) : ℕ :=
  (convOutDim h cfg.padding.1 cfg.dilation.1 cfg.kernelSize.1 cfg.stride.1).toNat *
    (convOutDim w cfg.padding.2 cfg.dilation.2 cfg.kernelSize.2 cfg.stride.2).toNat

/-- Line 139, `torch.clamp(patches.narrow(-1, 0, self.kernel_len), min=self.manifold.k.sqrt())`:
for `i < kernel_len`, time tap `i` becomes `max (patch i) (sqrt k)`. -/
noncomputable def patches_time (cfg : LayerCfg) (patch : ℕ → ℝ) (i : ℕ) : ℝ :=
  max (patch i) (Real.sqrt cfg.k)

/-- The radicand of line 141:
`torch.sum(patches_time ** 2, dim=-1) - ((self.kernel_len - 1) * self.manifold.k)`. -/
noncomputable def time_radicand (cfg : LayerCfg) (patch : ℕ → ℝ) : ℝ :=
  (∑ i ∈ Finset.range (kernel_len cfg), patches_time cfg patch i ^ 2) -
    ((kernel_len cfg : ℝ) - 1) * cfg.k

/-- `patches_time_rescaled` (line 141): `torch.sqrt` of the radicand. -/
noncomputable def patches_time_rescaled (cfg : LayerCfg) (patch : ℕ → ℝ) : ℝ :=
  Real.sqrt (time_radicand cfg patch)

/-- `patches_space` (line 145): `patches.narrow(-1, kernel_len, d - kernel_len)`,
i.e. the flat spatial block starting after the `kernel_len` time taps. -/
def patches_space (cfg : LayerCfg) (patch : ℕ → ℝ) (j : ℕ) : ℝ :=
  patch (kernel_len cfg + j)

/-- One step of line 147, `.reshape(b, np, self.in_channels - 1, -1)`, viewed on
the flat last axis: entry `(i, j)` of a row-major matrix with `cols` columns. -/
def reshape2d (cols : ℕ) (v : ℕ → α) (i j : ℕ) : α := v (i * cols + j)

/-- One step of line 147, `.transpose(-1, -2)`: swap the two matrix axes. -/
def transpose2d (m : ℕ → ℕ → α) (i j : ℕ) : α := m j i

/-- One step of line 147, the final `.reshape(patches_space.shape)`: row-major
flattening of a matrix that now has `cols` columns. -/
def flatten2d (cols : ℕ) (m : ℕ → ℕ → α) (j : ℕ) : α := m (j / cols) (j % cols)

/-- Line 147 in full: view the flat spatial block as an
`(in_channels - 1) × kernel_len` matrix, transpose the last two axes, and
flatten back to a vector of the same length. -/
def patches_space_reordered (cfg : LayerCfg) (space : ℕ → ℝ) : ℕ → ℝ :=
  flatten2d (cfg.inChannels - 1) (transpose2d (reshape2d (kernel_len cfg) space))

/-- `extract_lorentz_patches` (lines 136-154) on one patch: the concatenation
(line 151) of the single rescaled time value with the reordered spatial block. -/
noncomputable def extract_lorentz_patches (cfg : LayerCfg) (patch : ℕ → ℝ) (j : ℕ) : ℝ :=
  if j = 0 then patches_time_rescaled cfg patch
  else patches_space_reordered cfg (patches_space cfg patch) (j - 1)

/-- `forward` (lines 96-134) restricted to one patch, with the collaborator
`self.linearized_kernel` abstracted as the function `lfc` determined by its
post-construction weights. -/
noncomputable def forward_patch (cfg : LayerCfg) (lfc : (ℕ → ℝ) → ℕ → ℝ)
    (patch : ℕ → ℝ) : ℕ → ℝ :=
  lfc (extract_lorentz_patches cfg patch)

/-- Shape semantics of `extract_lorentz_patches` (lines 136-154) on input
`(bsz, np, d)`: the `narrow` of line 139 requires `kernel_len ≤ d`; the reshape
of line 147 (target `(bsz, np, in_channels - 1, -1)`) requires the product of
the known dimensions to be nonzero and to divide the element count; on success
the last axis becomes `1 + (d - kernel_len)` after the concatenation of
line 151, the batch and patch axes being unchanged. -/
def extract_lorentz_patches_shape (cfg : LayerCfg) (bsz np d : ℕ) : Except String ℕ :=
  if d < kernel_len cfg then
    Except.error "narrow: start + length exceeds dimension size"
  else if bsz * np * (cfg.inChannels - 1) = 0 then
    Except.error "reshape: cannot infer the size of dimension -1"
  else if (bsz * np * (d - kernel_len cfg)) % (bsz * np * (cfg.inChannels - 1)) ≠ 0 then
    Except.error "reshape: invalid shape for input size"
  else
    Except.ok (1 + (d - kernel_len cfg))

/-- Modelled from the spec: `GroupLorentzFullyConnected`
(lib/lorentz_equivariant/layers/LFC.py is not among the sources).  Per
specification section 6 it is constructed with input width `lin_features` and
maps `(batch, num_patches, input_width)` to `(batch, num_patches, output_width)`
with `output_width = out_channels`; calling it with any other last-axis width is
a shape error reporting expected versus actual width. -/
def linearized_kernel_shape (cfg : LayerCfg) (inWidth : ℕ) : Except String ℕ :=
  if inWidth = lin_features cfg then Except.ok cfg.outChannels
  else
    Except.error ("linear: expected input width " ++ toString (lin_features cfg) ++
      " but got " ++ toString inWidth)

/-- Final stage of the `forward` shape computation: the `view` of line 131
applied to the linear collaborator's result of shape `(bsz, hT * wT, outC)`
(its error propagates); `view(bsz, output_stabilizer_size, h_out, w_out, outC)`
succeeds only if the element counts agree exactly. -/
def view_stage (cfg : LayerCfg) (bsz hT wT : ℕ) :
    Except String ℕ → Except String (ℕ × ℕ × ℕ × ℕ × ℕ)
  | Except.error e => Except.error e
  | Except.ok outC =>
    if bsz * ((hT * wT) * outC) =
        bsz * (cfg.outputStabilizerSize * (hT * (wT * outC))) then
      Except.ok (bsz, cfg.outputStabilizerSize, hT, wT, outC)
    else
      Except.error "view: shape is invalid for input size"

/-- Middle stage of the `forward` shape computation: feed the result of
`extract_lorentz_patches` (its error propagates) to the linear collaborator
(line 129), then to the `view` stage. -/
def linear_stage (cfg : LayerCfg) (bsz hT wT : ℕ) :
    Except String ℕ → Except String (ℕ × ℕ × ℕ × ℕ × ℕ)
  | Except.error e => Except.error e
  | Except.ok dpre => view_stage cfg bsz hT wT (linearized_kernel_shape cfg dpre)

/-- Shape semantics of `forward` (lines 96-134) for an input of shape
`(bsz, h, w, c)`: compute `h_out`/`w_out` (lines 104-107; `torch.nn.Unfold`
raises when either is non-positive), unfold into
`(bsz, c * kernel_len, h_out * w_out)` patches and permute (lines 112-125),
run `extract_lorentz_patches`, apply the linear collaborator, and `view` the
result as `(bsz, output_stabilizer_size, h_out, w_out, out_channels)`
(line 131). -/
def forwardShape (cfg : LayerCfg) (bsz h w c : ℕ) : Except String (ℕ × ℕ × ℕ × ℕ × ℕ) :=
  let hOut := convOutDim h cfg.padding.1 cfg.dilation.1 cfg.kernelSize.1 cfg.stride.1
  let wOut := convOutDim w cfg.padding.2 cfg.dilation.2 cfg.kernelSize.2 cfg.stride.2
  if hOut ≤ 0 ∨ wOut ≤ 0 then
    Except.error "unfold: calculated shape of the array of sliding blocks is too small"
  else
    linear_stage cfg bsz hOut.toNat wOut.toNat
      (extract_lorentz_patches_shape cfg bsz (hOut.toNat * wOut.toNat) (c * kernel_len cfg))

/-- Example configuration: stabilizer pair `(1, 4)`, 2 input channels (one time
plus one spatial), 1 output channel, `3 × 3` kernel, stride 1, no padding,
dilation 1, curvature 1. -/
def cfgEx : LayerCfg :=
  { inputStabilizerSize := 1, outputStabilizerSize := 4, inChannels := 2, outChannels := 1,
    kernelSize := (3, 3), stride := (1, 1), padding := (0, 0), dilation := (1, 1),
    bias := true, k := 1 }

/-- As `cfgEx` but with a `1 × 1` kernel (`kernel_len = 1`). -/
def cfgW : LayerCfg := { cfgEx with kernelSize := (1, 1) }

/-- As `cfgEx` but with 3 input channels (two spatial channels) and a `2 × 1`
kernel (`kernel_len = 2`), the smallest configuration on which the spatial
reorder is a nontrivial permutation. -/
def cfgC3 : LayerCfg := { cfgEx with inChannels := 3, kernelSize := (2, 1) }

/-- A concrete patch whose flat entry `j` is the number `j`; with `cfgC3` its
layout is: time taps `0, 1`, first spatial channel taps `2, 3`, second spatial
channel taps `4, 5`. -/
noncomputable def patchC3 : ℕ → ℝ := fun j => (j : ℝ)

/-- Concrete patch for the clamping witness: time tap `sqrt 1 - 1/2` (below the
manifold threshold), spatial entries `j`. -/
noncomputable def patchBelow : ℕ → ℝ := fun j => if j = 0 then Real.sqrt 1 - 1 / 2 else (j : ℝ)

/-- Concrete patch for the clamping witness: time tap exactly `sqrt 1`, spatial
entries `j`. -/
noncomputable def patchFloor : ℕ → ℝ := fun j => if j = 0 then Real.sqrt 1 else (j : ℝ)

/-- `convOutDim` is the floor of the exact rational value of
`(dim + 2 * padding - dilation * (kernel - 1) - 1) / stride + 1`, i.e. exactly
what `math.floor` at lines 104-107 computes, whenever the stride is positive. -/
theorem convOutDim_eq_floor (dim pad dil ker str : ℕ) :
    convOutDim dim pad dil ker str =
      Int.floor ((((dim : ℚ) + 2 * (pad : ℚ) - (dil : ℚ) * ((ker : ℚ) - 1) - 1)
        / (str : ℚ)) + 1) := by
  have hnum : ((dim : ℚ) + 2 * (pad : ℚ) - (dil : ℚ) * ((ker : ℚ) - 1) - 1) =
      (((dim : ℤ) + 2 * (pad : ℤ) - (dil : ℤ) * ((ker : ℤ) - 1) - 1 : ℤ) : ℚ) := by
    push_cast
    ring
  rw [hnum, Int.floor_add_one, Rat.floor_intCast_div_natCast]
  rfl

/-- The dictionary lookup succeeds exactly on the four supported keys. -/
theorem make_indices_functions_isSome_iff (p : ℕ × ℕ) :
    (make_indices_functions p).isSome = true ↔ p ∈ supportedPairs := by
  unfold make_indices_functions supportedPairs
  split_ifs with h1 h2 h3 h4 <;> simp_all

/-- Claim C4: for every pair `(input_stabilizer_size, output_stabilizer_size)`
in `{(1,4), (4,4), (1,8), (8,8)}` layer construction succeeds, and for every
other pair construction fails (the dictionary lookup on line 86, evaluated from
`__init__` at line 83, raises `KeyError`) before any `forward` call can be
made. -/
theorem c4_supported_stabilizer_pairs (cfg : LayerCfg) :
    (constructGroupLorentzConv2d cfg).isOk = true ↔
      (cfg.inputStabilizerSize, cfg.outputStabilizerSize) ∈ supportedPairs := by
  have h := make_indices_functions_isSome_iff (cfg.inputStabilizerSize, cfg.outputStabilizerSize)
  unfold constructGroupLorentzConv2d make_transformation_indices
  rcases hm : make_indices_functions (cfg.inputStabilizerSize, cfg.outputStabilizerSize) with _ | t
  · rw [hm] at h
    simpa [Except.isOk, Except.toBool] using h
  · rw [hm] at h
    simpa [Except.isOk, Except.toBool] using h

/-- Claim C5: the forward pass computes `h_out` and `w_out` independently as
`floor((dim + 2 * padding - dilation * (kernel - 1) - 1) / stride + 1)`
(lines 104-107; `forwardShape` and `num_patches` are both defined through
`convOutDim`); in particular a `32 × 32` input with kernel 3, stride 1,
padding 0, dilation 1 yields `30 × 30`, and kernel 3, stride 2, padding 1
yields `16 × 16`. -/
theorem c5_output_spatial_dims :
    (∀ dim pad dil ker str : ℕ,
        convOutDim dim pad dil ker str =
          Int.floor ((((dim : ℚ) + 2 * (pad : ℚ) - (dil : ℚ) * ((ker : ℚ) - 1) - 1)
            / (str : ℚ)) + 1)) ∧
      convOutDim 32 0 1 3 1 = 30 ∧ convOutDim 32 1 1 3 2 = 16 ∧
      num_patches cfgEx 32 32 = 30 * 30 := by
  refine ⟨convOutDim_eq_floor, by decide, by decide, by decide⟩

/-- Claim C1: for a patch whose first `kernel_len` entries each already satisfy
the clamp bound `sqrt k ≤ patch i` (so the clamp of line 139 is the identity on
them), the single rescaled time value of line 141 equals
`sqrt(Σ (time taps)^2 - (kernel_len - 1) * k)`; for `kernel_len` identical taps
`t ≥ sqrt k` it equals `sqrt(kernel_len * t^2 - (kernel_len - 1) * k)`, and for
`t = sqrt k` it is exactly `sqrt k`. -/
theorem c1_time_rescale (cfg : LayerCfg) (patch : ℕ → ℝ) (t : ℝ)
    (hpatch : ∀ i < kernel_len cfg, Real.sqrt cfg.k ≤ patch i)
    (ht : Real.sqrt cfg.k ≤ t) (hk : 0 ≤ cfg.k) :
    patches_time_rescaled cfg patch =
        Real.sqrt ((∑ i ∈ Finset.range (kernel_len cfg), patch i ^ 2) -
          ((kernel_len cfg : ℝ) - 1) * cfg.k) ∧
      patches_time_rescaled cfg (fun _ => t) =
        Real.sqrt ((kernel_len cfg : ℝ) * t ^ 2 - ((kernel_len cfg : ℝ) - 1) * cfg.k) ∧
      patches_time_rescaled cfg (fun _ => Real.sqrt cfg.k) = Real.sqrt cfg.k := by
  refine ⟨?_, ?_, ?_⟩
  · unfold patches_time_rescaled time_radicand
    congr 1
    congr 1
    refine Finset.sum_congr rfl fun i hi => ?_
    unfold patches_time
    rw [max_eq_left (hpatch i (Finset.mem_range.mp hi))]
  · have h2 : ∀ i ∈ Finset.range (kernel_len cfg),
        patches_time cfg (fun _ => t) i ^ 2 = t ^ 2 := by
      intro i _
      simp only [patches_time]
      rw [max_eq_left ht]
    unfold patches_time_rescaled time_radicand
    rw [Finset.sum_congr rfl h2, Finset.sum_const, Finset.card_range, nsmul_eq_mul]
  · have h3 : ∀ i ∈ Finset.range (kernel_len cfg),
        patches_time cfg (fun _ => Real.sqrt cfg.k) i ^ 2 = cfg.k := by
      intro i _
      simp only [patches_time]
      rw [max_self, Real.sq_sqrt hk]
    unfold patches_time_rescaled time_radicand
    rw [Finset.sum_congr rfl h3, Finset.sum_const, Finset.card_range, nsmul_eq_mul]
    congr 1
    ring

/-- Witness for C1: with curvature 1, a `3 × 3` kernel and constant time taps
`t = 2 ≥ sqrt 1`, the hypotheses of `c1_time_rescale` hold and the rescaled
time for taps constantly `sqrt 1` is exactly `sqrt 1`. -/
theorem c1_time_rescale_witness :
    Real.sqrt cfgEx.k ≤ 2 ∧ (0 : ℝ) ≤ cfgEx.k ∧
      patches_time_rescaled cfgEx (fun _ => Real.sqrt cfgEx.k) = Real.sqrt cfgEx.k := by
  have hs : Real.sqrt cfgEx.k = 1 := by
    show Real.sqrt 1 = 1
    exact Real.sqrt_one
  have h2 : Real.sqrt cfgEx.k ≤ 2 := by
    rw [hs]
    norm_num
  refine ⟨h2, by norm_num [cfgEx], ?_⟩
  exact (c1_time_rescale cfgEx (fun _ => 2) 2 (fun i _ => by rw [hs]; norm_num) h2
    (by norm_num [cfgEx])).2.2

/-- Claim C7: with positive curvature, after the clamp of line 139 every time
tap is at least `sqrt k`, so the radicand of line 141 is at least `k > 0` (for
any kernel length): the square root is applied to a positive argument and the
rescaled time value is itself at least `sqrt k`. -/
theorem c7_radicand_bounds (cfg : LayerCfg) (patch : ℕ → ℝ)
    (hk : 0 < cfg.k) :
    cfg.k ≤ time_radicand cfg patch ∧ 0 < time_radicand cfg patch ∧
      Real.sqrt cfg.k ≤ patches_time_rescaled cfg patch := by
  have hterm : ∀ i ∈ Finset.range (kernel_len cfg), cfg.k ≤ patches_time cfg patch i ^ 2 := by
    intro i _
    have h1 : Real.sqrt cfg.k ≤ patches_time cfg patch i := le_max_right _ _
    calc cfg.k = Real.sqrt cfg.k ^ 2 := (Real.sq_sqrt hk.le).symm
      _ ≤ patches_time cfg patch i ^ 2 := pow_le_pow_left₀ (Real.sqrt_nonneg _) h1 2
  have hsum : (kernel_len cfg : ℝ) * cfg.k ≤
      ∑ i ∈ Finset.range (kernel_len cfg), patches_time cfg patch i ^ 2 := by
    calc (kernel_len cfg : ℝ) * cfg.k
        = ∑ _i ∈ Finset.range (kernel_len cfg), cfg.k := by
          rw [Finset.sum_const, Finset.card_range, nsmul_eq_mul]
      _ ≤ _ := Finset.sum_le_sum hterm
  have hexp : ((kernel_len cfg : ℝ) - 1) * cfg.k = (kernel_len cfg : ℝ) * cfg.k - cfg.k := by
    ring
  have hrad : cfg.k ≤ time_radicand cfg patch := by
    unfold time_radicand
    rw [hexp]
    linarith
  refine ⟨hrad, lt_of_lt_of_le hk hrad, ?_⟩
  unfold patches_time_rescaled
  exact Real.sqrt_le_sqrt hrad

/-- Witness for C7: the `1 × 1`-kernel configuration with curvature 1 and the
all-zero patch satisfy the hypotheses, and the rescaled time is at least
`sqrt 1`. -/
theorem c7_radicand_bounds_witness :
    (0 : ℝ) < cfgW.k ∧
      Real.sqrt cfgW.k ≤ patches_time_rescaled cfgW (fun _ => 0) := by
  refine ⟨by norm_num [cfgW, cfgEx], ?_⟩
  exact (c7_radicand_bounds cfgW (fun _ => 0) (by norm_num [cfgW, cfgEx])).2.2

/-- Claim C6: a time tap below `sqrt k` is floored to exactly `sqrt k` by the
clamp of line 139 before the rescale, so a patch carrying the time tap
`sqrt k - ε` (with `ε > 0`, at position `i0 < kernel_len`) produces exactly the
same pre-kernel vector — and hence the same forward output through any weights
of the linear collaborator — as the same patch with that tap replaced by
`sqrt k`. -/
theorem c6_clamp_floor_equivalence (cfg : LayerCfg) (p q : ℕ → ℝ) (i0 : ℕ) (ε : ℝ)
    (hi0 : i0 < kernel_len cfg) (hε : 0 < ε)
    (hp : p i0 = Real.sqrt cfg.k - ε) (hq : q i0 = Real.sqrt cfg.k)
    (hagree : ∀ j, j ≠ i0 → p j = q j) :
    patches_time cfg p i0 = Real.sqrt cfg.k ∧
      extract_lorentz_patches cfg p = extract_lorentz_patches cfg q ∧
      ∀ lfc : (ℕ → ℝ) → ℕ → ℝ, forward_patch cfg lfc p = forward_patch cfg lfc q := by
  have hfloor : patches_time cfg p i0 = Real.sqrt cfg.k := by
    unfold patches_time
    rw [hp, max_eq_right (by linarith)]
  have htime : ∀ i, patches_time cfg p i = patches_time cfg q i := by
    intro i
    by_cases hii : i = i0
    · subst hii
      rw [hfloor]
      unfold patches_time
      rw [hq, max_self]
    · unfold patches_time
      rw [hagree i hii]
  have hspace : patches_space cfg p = patches_space cfg q := by
    funext j
    unfold patches_space
    exact hagree _ (by omega)
  have hx : extract_lorentz_patches cfg p = extract_lorentz_patches cfg q := by
    funext j
    unfold extract_lorentz_patches
    by_cases hj : j = 0
    · rw [if_pos hj, if_pos hj]
      unfold patches_time_rescaled time_radicand
      rw [Finset.sum_congr rfl fun i _ => by rw [htime i]]
    · rw [if_neg hj, if_neg hj, hspace]
  exact ⟨hfloor, hx, fun lfc => by unfold forward_patch; rw [hx]⟩

/-- Witness for C6: with curvature 1 and a `1 × 1` kernel, the patch with time
tap `sqrt 1 - 1/2` yields the same pre-kernel vector as the one with time tap
exactly `sqrt 1`. -/
theorem c6_clamp_floor_equivalence_witness :
    (0 : ℝ) < 1 / 2 ∧ patchBelow 0 = Real.sqrt cfgW.k - 1 / 2 ∧
      extract_lorentz_patches cfgW patchBelow = extract_lorentz_patches cfgW patchFloor := by
  have hkl : (0 : ℕ) < kernel_len cfgW := by norm_num [kernel_len, cfgW, cfgEx]
  have hp : patchBelow 0 = Real.sqrt cfgW.k - 1 / 2 := by
    show (if 0 = 0 then Real.sqrt 1 - 1 / 2 else ((0 : ℕ) : ℝ)) = Real.sqrt cfgW.k - 1 / 2
    norm_num [cfgW, cfgEx]
  have hq : patchFloor 0 = Real.sqrt cfgW.k := by
    show (if 0 = 0 then Real.sqrt 1 else ((0 : ℕ) : ℝ)) = Real.sqrt cfgW.k
    norm_num [cfgW, cfgEx]
  refine ⟨by norm_num, hp, ?_⟩
  exact (c6_clamp_floor_equivalence cfgW patchBelow patchFloor 0 (1 / 2) hkl (by norm_num)
    hp hq (fun j hj => by simp [patchBelow, patchFloor, hj])).2.1

/-- Claim C10: the forward transform is deterministic — it is embedded as a
pure function of the configuration, the collaborator map determined by the
post-construction weights, and the input, so two layers with identical
parameters and weights produce identical outputs on identical inputs (the
`print` on line 132 writes to standard output but does not affect the returned
value). -/
theorem c10_forward_deterministic (cfg1 cfg2 : LayerCfg)
    (lfc1 lfc2 : (ℕ → ℝ) → ℕ → ℝ) (p1 p2 : ℕ → ℝ) (b h w c : ℕ)
    (hcfg : cfg1 = cfg2) (hlfc : lfc1 = lfc2) (hp : p1 = p2) :
    forward_patch cfg1 lfc1 p1 = forward_patch cfg2 lfc2 p2 ∧
      forwardShape cfg1 b h w c = forwardShape cfg2 b h w c := by
  subst hcfg
  subst hlfc
  subst hp
  exact ⟨rfl, rfl⟩

/-- Witness for C10 at a concrete configuration, collaborator and input. -/
theorem c10_forward_deterministic_witness :
    forward_patch cfgEx (fun v => v) patchC3 = forward_patch cfgEx (fun v => v) patchC3 ∧
      forwardShape cfgEx 1 3 3 2 = forwardShape cfgEx 1 3 3 2 :=
  c10_forward_deterministic cfgEx cfgEx (fun v => v) (fun v => v) patchC3 patchC3 1 3 3 2
    rfl rfl rfl

/-- Claim C3, as the code actually behaves (amended): the spatial entries
arrive from `torch.nn.Unfold` in channel-major order (channel `c`'s taps at
flat offsets `c * kernel_len + t`, which is also why line 139 can take the
`kernel_len` time taps as the leading block), and line 147 permutes them to
tap-major order: in the vector handed to the linear collaborator, position
`1 + (t * (in_channels - 1) + c)` holds tap `t` of spatial channel `c`, so for
each fixed tap all spatial channels are contiguous. -/
theorem c3_space_reorder_channel_major_to_tap_major (cfg : LayerCfg) (patch : ℕ → ℝ)
    (t c : ℕ) (hc : c < cfg.inChannels - 1) :
    extract_lorentz_patches cfg patch (1 + (t * (cfg.inChannels - 1) + c)) =
      patch ((c + 1) * kernel_len cfg + t) := by
  unfold extract_lorentz_patches
  rw [if_neg (by omega)]
  have h1 : (1 + (t * (cfg.inChannels - 1) + c)) - 1 = t * (cfg.inChannels - 1) + c := by
    omega
  rw [h1]
  unfold patches_space_reordered flatten2d transpose2d reshape2d patches_space
  have hcm : 0 < cfg.inChannels - 1 := Nat.zero_lt_of_lt hc
  have hmod : (t * (cfg.inChannels - 1) + c) % (cfg.inChannels - 1) = c := by
    rw [Nat.mul_comm t (cfg.inChannels - 1), Nat.mul_add_mod, Nat.mod_eq_of_lt hc]
  have hdiv : (t * (cfg.inChannels - 1) + c) / (cfg.inChannels - 1) = t := by
    rw [Nat.mul_comm t (cfg.inChannels - 1), Nat.mul_add_div hcm, Nat.div_eq_of_lt hc,
      Nat.add_zero]
  rw [hmod, hdiv]
  congr 1
  ring

/-- Witness for C3 (amended) at the concrete configuration `cfgC3`
(`in_channels = 3`, `kernel_len = 2`) and the patch `j ↦ j`: position 1 of the
pre-kernel vector holds tap 0 of spatial channel 0, i.e. the original flat
entry 2. -/
theorem c3_space_reorder_witness :
    (0 : ℕ) < cfgC3.inChannels - 1 ∧
      extract_lorentz_patches cfgC3 patchC3 1 = patchC3 2 := by
  refine ⟨by norm_num [cfgC3, cfgEx], ?_⟩
  have h := c3_space_reorder_channel_major_to_tap_major cfgC3 patchC3 0 0
    (by norm_num [cfgC3, cfgEx])
  simpa [kernel_len, cfgC3, cfgEx] using h

/-- The pre-kernel vector of `cfgC3` on the patch `j ↦ j`, entry 0: the
rescaled time `sqrt((max 0 1)^2 + (max 1 1)^2 - 1) = 1`. -/
theorem extractC3_entry0 : extract_lorentz_patches cfgC3 patchC3 0 = 1 := by
  have hrad : time_radicand cfgC3 patchC3 = 1 := by
    unfold time_radicand patches_time kernel_len
    show (∑ i ∈ Finset.range (2 * 1), max ((i : ℝ)) (Real.sqrt 1) ^ 2) -
      ((((2 * 1 : ℕ)) : ℝ) - 1) * 1 = 1
    rw [Real.sqrt_one]
    norm_num [Finset.sum_range_succ]
  unfold extract_lorentz_patches patches_time_rescaled
  rw [if_pos rfl, hrad, Real.sqrt_one]

/-- The pre-kernel vector of `cfgC3` on the patch `j ↦ j`, entries 1 to 4:
`2, 4, 3, 5` — tap-major order. -/
theorem extractC3_entries :
    extract_lorentz_patches cfgC3 patchC3 1 = 2 ∧
      extract_lorentz_patches cfgC3 patchC3 2 = 4 ∧
      extract_lorentz_patches cfgC3 patchC3 3 = 3 ∧
      extract_lorentz_patches cfgC3 patchC3 4 = 5 := by
  refine ⟨?_, ?_, ?_, ?_⟩ <;>
    norm_num [extract_lorentz_patches, patches_space_reordered, flatten2d, transpose2d,
      reshape2d, patches_space, kernel_len, cfgC3, cfgEx, patchC3]

/-- Claim C3, counterexample to the claim as stated: for the configuration
`cfgC3` (`in_channels = 3`, two spatial channels, `kernel_len = 2`) and the
patch `j ↦ j`, the vector handed to the linear collaborator is
`[1, 2, 4, 3, 5]`; the two taps of the first spatial channel (the original
entries `2` and `3`) occupy positions 1 and 3 and are NOT contiguous: no two
adjacent positions of the vector hold them (in either order).  The permutation
of line 147 goes channel-major to tap-major, the opposite of the claim. -/
theorem c3_space_reorder_counterexample :
    ¬ ∃ s, s ≤ 3 ∧
      ((extract_lorentz_patches cfgC3 patchC3 s = 2 ∧
          extract_lorentz_patches cfgC3 patchC3 (s + 1) = 3) ∨
        (extract_lorentz_patches cfgC3 patchC3 s = 3 ∧
          extract_lorentz_patches cfgC3 patchC3 (s + 1) = 2)) := by
  rintro ⟨s, hs, h⟩
  obtain ⟨e1, e2, e3, e4⟩ := extractC3_entries
  interval_cases s
  · rw [extractC3_entry0, e1] at h
    norm_num at h
  · rw [e1, e2] at h
    norm_num at h
  · rw [e2, e3] at h
    norm_num at h
  · rw [e3, e4] at h
    norm_num at h

/-- On a channel-matched input (`d = in_channels * kernel_len`), with a
nonempty batch, at least one patch and at least one spatial channel, the
extraction succeeds and the pre-kernel width is `1 + (in_channels - 1) * kernel_len`. -/
theorem extract_shape_matched (cfg : LayerCfg) (bsz np : ℕ)
    (hb : 1 ≤ bsz) (hnp : 1 ≤ np) (hic : 2 ≤ cfg.inChannels) :
    extract_lorentz_patches_shape cfg bsz np (cfg.inChannels * kernel_len cfg) =
      Except.ok (1 + (cfg.inChannels - 1) * kernel_len cfg) := by
  have hsub : (cfg.inChannels - 1) * kernel_len cfg =
      cfg.inChannels * kernel_len cfg - kernel_len cfg := by
    rw [Nat.sub_mul, Nat.one_mul]
  have hle : kernel_len cfg ≤ cfg.inChannels * kernel_len cfg :=
    Nat.le_mul_of_pos_left _ (by omega)
  have hpos : 0 < bsz * np * (cfg.inChannels - 1) :=
    Nat.mul_pos (Nat.mul_pos hb hnp) (by omega)
  have hmod : (bsz * np * (cfg.inChannels * kernel_len cfg - kernel_len cfg)) %
      (bsz * np * (cfg.inChannels - 1)) = 0 := by
    rw [← hsub]
    have hfac : bsz * np * ((cfg.inChannels - 1) * kernel_len cfg) =
        (bsz * np * (cfg.inChannels - 1)) * kernel_len cfg := by
      ring
    rw [hfac, Nat.mul_mod_right]
  unfold extract_lorentz_patches_shape
  rw [if_neg (by omega), if_neg (by omega), if_neg (not_not_intro hmod), ← hsub]

/-- The linear collaborator accepts exactly the pre-kernel width
`1 + (in_channels - 1) * kernel_len = lin_features`. -/
theorem linearized_kernel_shape_matched (cfg : LayerCfg) :
    linearized_kernel_shape cfg (1 + (cfg.inChannels - 1) * kernel_len cfg) =
      Except.ok cfg.outChannels := by
  unfold linearized_kernel_shape lin_features
  rw [if_pos (by omega)]

/-- Element-count arithmetic of the `view` of line 131: with a nonempty batch,
positive output dimensions, at least one output channel and a stabilizer size
of at least 4, the element count `b * (x * y) * oC` of the collaborator output
can never equal the `b * oss * x * y * oC` demanded by the rank-5 view. -/
theorem view_count_mismatch (b x y oC oss : ℕ) (hb : 1 ≤ b) (hx : 1 ≤ x) (hy : 1 ≤ y)
    (hoC : 1 ≤ oC) (hoss : 4 ≤ oss) :
    b * ((x * y) * oC) ≠ b * (oss * (x * (y * oC))) := by
  intro heq
  have hX : 1 ≤ b * ((x * y) * oC) :=
    Nat.mul_pos hb (Nat.mul_pos (Nat.mul_pos hx hy) hoC)
  have hrw : b * (oss * (x * (y * oC))) = oss * (b * ((x * y) * oC)) := by
    ring
  rw [hrw] at heq
  have h4 : 4 * (b * ((x * y) * oC)) ≤ oss * (b * ((x * y) * oC)) :=
    Nat.mul_le_mul_right _ hoss
  generalize hz : b * ((x * y) * oC) = z at heq hX h4
  generalize hw2 : oss * z = v at heq h4
  omega

/-- Every supported `output_stabilizer_size` is 4 or 8. -/
theorem supported_oss_ge_four (cfg : LayerCfg)
    (hsup : (cfg.inputStabilizerSize, cfg.outputStabilizerSize) ∈ supportedPairs) :
    4 ≤ cfg.outputStabilizerSize := by
  simp only [supportedPairs, List.mem_cons, List.mem_singleton, Prod.mk.injEq,
    List.not_mem_nil, or_false] at hsup
  rcases hsup with ⟨_, h4⟩ | ⟨_, h4⟩ | ⟨_, h4⟩ | ⟨_, h4⟩ <;> omega

/-- Claim C2, as the code actually behaves (amended): for every supported
configuration, the extraction produces `h_out * w_out` patches — not
`output_stabilizer_size * h_out * w_out` — and the linear collaborator keeps
the patch count, so on every channel-matched input with a nonempty batch,
positive output dimensions and at least one output channel, the element-count
equality demanded by the `view` of line 131 fails (every supported
`output_stabilizer_size` is 4 or 8) and `forward` raises the internal
consistency error of `view` instead of returning a rank-5 result. -/
theorem c2_view_error_amended (cfg : LayerCfg) (b h w : ℕ)
    (hsup : (cfg.inputStabilizerSize, cfg.outputStabilizerSize) ∈ supportedPairs)
    (hb : 1 ≤ b) (hic : 2 ≤ cfg.inChannels) (hoc : 1 ≤ cfg.outChannels)
    (hh : 0 < convOutDim h cfg.padding.1 cfg.dilation.1 cfg.kernelSize.1 cfg.stride.1)
    (hw : 0 < convOutDim w cfg.padding.2 cfg.dilation.2 cfg.kernelSize.2 cfg.stride.2) :
    num_patches cfg h w ≠ cfg.outputStabilizerSize * num_patches cfg h w ∧
      forwardShape cfg b h w cfg.inChannels =
        Except.error "view: shape is invalid for input size" := by
  have hoss : 4 ≤ cfg.outputStabilizerSize := supported_oss_ge_four cfg hsup
  have hT : 1 ≤ (convOutDim h cfg.padding.1 cfg.dilation.1 cfg.kernelSize.1 cfg.stride.1).toNat := by
    omega
  have wT : 1 ≤ (convOutDim w cfg.padding.2 cfg.dilation.2 cfg.kernelSize.2 cfg.stride.2).toNat := by
    omega
  constructor
  · intro heq
    have hnp : 1 ≤ num_patches cfg h w := Nat.mul_pos hT wT
    have h4 : 4 * num_patches cfg h w ≤ cfg.outputStabilizerSize * num_patches cfg h w :=
      Nat.mul_le_mul_right _ hoss
    rw [← heq] at h4
    omega
  · unfold forwardShape
    rw [if_neg (by omega)]
    rw [extract_shape_matched cfg b
      ((convOutDim h cfg.padding.1 cfg.dilation.1 cfg.kernelSize.1 cfg.stride.1).toNat *
        (convOutDim w cfg.padding.2 cfg.dilation.2 cfg.kernelSize.2 cfg.stride.2).toNat)
      hb (Nat.mul_pos hT wT) hic]
    simp only [linear_stage]
    rw [linearized_kernel_shape_matched cfg]
    simp only [view_stage]
    rw [if_neg (view_count_mismatch b
      (convOutDim h cfg.padding.1 cfg.dilation.1 cfg.kernelSize.1 cfg.stride.1).toNat
      (convOutDim w cfg.padding.2 cfg.dilation.2 cfg.kernelSize.2 cfg.stride.2).toNat
      cfg.outChannels cfg.outputStabilizerSize hb hT wT hoc hoss)]

/-- Witness for C2 (amended) at the supported configuration `cfgEx` and a
`1 × 3 × 3 × 2` input: one patch is produced, `1 ≠ 4 * 1`, and `forward`
raises the `view` error. -/
theorem c2_view_error_amended_witness :
    (cfgEx.inputStabilizerSize, cfgEx.outputStabilizerSize) ∈ supportedPairs ∧
      num_patches cfgEx 3 3 ≠ cfgEx.outputStabilizerSize * num_patches cfgEx 3 3 ∧
      forwardShape cfgEx 1 3 3 cfgEx.inChannels =
        Except.error "view: shape is invalid for input size" := by
  have h := c2_view_error_amended cfgEx 1 3 3 (by decide) (by decide) (by decide) (by decide)
    (by decide) (by decide)
  exact ⟨by decide, h.1, h.2⟩

/-- Claim C2, counterexample to the claim as stated: at the supported
configuration `cfgEx` (stabilizer pair `(1, 4)`) on a batch-1 `3 × 3` input
with the configured 2 channels, extraction produces `num_patches = 1` patch
while `output_stabilizer_size * h_out * w_out = 4 * 1 * 1 = 4`, and `forward`
does not return a rank-5 array at all — it raises the `view` element-count
error. -/
theorem c2_rank5_counterexample :
    num_patches cfgEx 3 3 = 1 ∧
      cfgEx.outputStabilizerSize * 1 * 1 = 4 ∧
      forwardShape cfgEx 1 3 3 cfgEx.inChannels ≠
        Except.ok (1, cfgEx.outputStabilizerSize, 1, 1, cfgEx.outChannels) ∧
      forwardShape cfgEx 1 3 3 cfgEx.inChannels =
        Except.error "view: shape is invalid for input size" := by
  have hfe : forwardShape cfgEx 1 3 3 cfgEx.inChannels =
      Except.error "view: shape is invalid for input size" := by
    rfl
  refine ⟨by decide, by decide, ?_, hfe⟩
  rw [hfe]
  intro hcontr
  exact Except.noConfusion hcontr

/-- Claim C8: a forward call whose input channel count `c` differs from the
configured `in_channels` never returns a result: it raises a shape error —
either the `narrow` of line 139 (when `c = 0`), the `reshape` of line 147
(when the spatial block is not divisible into `in_channels - 1` channels), or
the linear collaborator's width check (the pre-kernel width
`1 + (c - 1) * kernel_len` cannot equal `lin_features` when `c ≠ in_channels`).
Nothing is silently truncated or padded. -/
theorem c8_channel_mismatch_errors (cfg : LayerCfg) (b h w c : ℕ)
    (hic : 1 ≤ cfg.inChannels) (hkl : 1 ≤ kernel_len cfg) (hc : c ≠ cfg.inChannels) :
    ∃ e, forwardShape cfg b h w c = Except.error e := by
  unfold forwardShape
  by_cases hout : convOutDim h cfg.padding.1 cfg.dilation.1 cfg.kernelSize.1 cfg.stride.1 ≤ 0 ∨
      convOutDim w cfg.padding.2 cfg.dilation.2 cfg.kernelSize.2 cfg.stride.2 ≤ 0
  · rw [if_pos hout]
    exact ⟨_, rfl⟩
  · rw [if_neg hout]
    rcases hx : extract_lorentz_patches_shape cfg b
        ((convOutDim h cfg.padding.1 cfg.dilation.1 cfg.kernelSize.1 cfg.stride.1).toNat *
          (convOutDim w cfg.padding.2 cfg.dilation.2 cfg.kernelSize.2 cfg.stride.2).toNat)
        (c * kernel_len cfg) with e2 | dpre
    · simp only [linear_stage]
      exact ⟨e2, rfl⟩
    · simp only [linear_stage]
      unfold extract_lorentz_patches_shape at hx
      split_ifs at hx with h1 h2 h3
      injection hx with hdpre
      subst hdpre
      have hcpos : 1 ≤ c := by
        by_contra hc0
        have hc00 : c = 0 := by omega
        rw [hc00, Nat.zero_mul] at h1
        omega
      have hsubc : c * kernel_len cfg - kernel_len cfg = (c - 1) * kernel_len cfg := by
        rw [Nat.sub_mul, Nat.one_mul]
      have hne2 : (c - 1) * kernel_len cfg ≠ (cfg.inChannels - 1) * kernel_len cfg := by
        intro heq2
        have hcc := Nat.eq_of_mul_eq_mul_right (show 0 < kernel_len cfg from hkl) heq2
        omega
      have hne3 : 1 + (c * kernel_len cfg - kernel_len cfg) ≠
          (cfg.inChannels - 1) * kernel_len cfg + 1 := by
        intro heq3
        apply hne2
        rw [hsubc] at heq3
        rw [Nat.add_comm 1 ((c - 1) * kernel_len cfg)] at heq3
        exact Nat.add_right_cancel heq3
      unfold linearized_kernel_shape lin_features
      rw [if_neg hne3]
      simp only [view_stage]
      exact ⟨_, rfl⟩

/-- Witness for C8: calling `cfgEx` (configured for 2 channels) on a 3-channel
`1 × 5 × 5 × 3` input yields an error, not a result. -/
theorem c8_channel_mismatch_errors_witness :
    (3 ≠ cfgEx.inChannels) ∧ (forwardShape cfgEx 1 5 5 3).isOk = false := by
  obtain ⟨e, he⟩ := c8_channel_mismatch_errors cfgEx 1 5 5 3 (by decide) (by decide) (by decide)
  refine ⟨by decide, ?_⟩
  rw [he]
  rfl
